import Mathlib

/-!
Verification of the region-tree / workspace / shortcut core of the `wm`
tiling window manager (src/main.c) against its natural-language
specification.

Shallow embedding notes.

* The per-workspace region arenas `regions[NUM_WORKSPACES][MAX_REGIONS]`
  and the root indices `root_regions[NUM_WORKSPACES]` are modelled as total
  functions from `Int`; C's out-of-range accesses (in particular the
  `regions[workspace][-1]` write in `remove_region`) become reads/writes at
  indices outside `[0, MAX_REGIONS)`, which no in-range scan ever observes.
  In the C memory layout `regions[workspace][-1]` actually aliases slot
  `MAX_REGIONS - 1` of workspace `workspace - 1` (or falls before the array
  when `workspace = 0`); the model keeps the write at index `-1` of the
  same workspace and the access-trace function records the index.
* `region_t.factor` is a C `float`.  Every value the program ever stores in
  it is 0.0f, 0.5f, or the result of repeatedly adding ±RESIZE_FACTOR
  (0.025f) and clamping; under exact real arithmetic all of these are
  integer multiples of 1/40.  The model therefore stores the factor as an
  `Int` counting fortieths (0.0f ↦ 0, 0.5f ↦ 20, 0.025f ↦ 1), which is the
  exact rational semantics restricted to the representable grid; float
  rounding error is idealised away.
* `uint16_t w = width * factor` truncates the non-negative float product
  toward zero, i.e. takes its floor; in fortieths this is
  `width * factor / 40` with Nat (floor) division.  For a negative factor
  the C conversion to `uint16_t` is undefined behaviour; the model clamps
  at 0 (`Int.toNat`), and no theorem below exercises that case.
* `log_msg(LOG_LEVEL_ERROR, ...)` calls `abort()`, so operations that can
  hit it (`add_region`, `remove_region`, and the destroy-notify handler)
  return `Option`; `none` is the aborted process.  `LOG_LEVEL_WARNING`
  does not abort and is modelled as a `warn` output.
* X requests issued by the handlers (configure, map, unmap, the warning
  log) are collected in an output list; the X server itself is outside the
  model.
-/

set_option maxRecDepth 8000

namespace Wm

/-- Arena capacity per workspace (`#define MAX_REGIONS 100`). -/
def MAX_REGIONS : Nat := 100

/-- Number of workspaces (`#define NUM_WORKSPACES 10`). -/
def NUM_WORKSPACES : Nat := 10

/-- The resize step `RESIZE_FACTOR = 0.025f`, in fortieths: exactly 1. -/
def RESIZE_FACTOR : Int := 1

/-- Direction of a split (`direction_t`). -/
inductive direction_t
  | DIR_HORIZONTAL
  | DIR_VERTICAL
deriving DecidableEq

/-- A region slot (`region_t`).  `factor` counts fortieths (see header). -/
structure region_t where
  handle : Nat
  parent : Int
  child0 : Int
  child1 : Int
  split : direction_t
  factor : Int
  exists_ : Bool
deriving DecidableEq

/-- The zero-initialised slot: C static storage starts all-bits-zero, so
`parent`, `child0`, `child1` start at 0 (not −1). -/
def region_zero : region_t :=
  { handle := 0, parent := 0, child0 := 0, child1 := 0,
    split := direction_t.DIR_HORIZONTAL, factor := 0, exists_ := false }

/-- Global mutable state of the manager: the region arenas, per-workspace
root indices, the active workspace, and the (immutable) screen size. -/
structure wm_state where
  regions : Int → Int → region_t
  root_regions : Int → Int
  workspace : Int
  screen_w : Nat
  screen_h : Nat

/-- Read slot `i` of the active workspace (C `regions[workspace][i]`). -/
def getr (st : wm_state) (i : Int) : region_t := st.regions st.workspace i

/-- Write slot `i` of the active workspace through a field update. -/
def updr (st : wm_state) (i : Int) (f : region_t → region_t) : wm_state :=
  { st with regions := fun w j =>
      if w = st.workspace ∧ j = i then f (st.regions w j) else st.regions w j }

/-- Root region index of the active workspace (`root_regions[workspace]`). -/
def cur_root (st : wm_state) : Int := st.root_regions st.workspace

/-- Set the active workspace's root index. -/
def set_root (st : wm_state) (v : Int) : wm_state :=
  { st with root_regions := fun w => if w = st.workspace then v else st.root_regions w }

/-- State after startup: zeroed arenas, every `root_regions[i] = -1`,
`workspace = 1`, a given screen size. -/
def initial_state (sw sh : Nat) : wm_state :=
  { regions := fun _ _ => region_zero, root_regions := fun _ => -1,
    workspace := 1, screen_w := sw, screen_h := sh }

/-- X requests and log lines emitted by the handlers. -/
inductive x_output
  | configure (window x y w h : Nat)
  | map_window (window : Nat)
  | unmap_window (window : Nat)
  | warn
deriving DecidableEq

/-- A C scan `for (i = 0; i < MAX_REGIONS; i++) if (p(i)) r = i;` starting
from `r = -1`: the LAST matching index, or −1. -/
def scan_last (p : Nat → Bool) : Int :=
  (List.range MAX_REGIONS).foldl (fun acc i => if p i then (i : Int) else acc) (-1)

/-- `get_empty_region`: first slot with `exists == false`; `none` models the
fatal "Too many regions" abort. -/
def get_empty_region (st : wm_state) : Option Nat :=
  (List.range MAX_REGIONS).find? (fun i => !(getr st i).exists_)

/-- Width given to `child0`:
`uint16_t w = width * (split == DIR_HORIZONTAL ? factor : 1.0f);`
(fortieths; floor division, see header). -/
def hsplit_w (st : wm_state) (region : Int) (width : Nat) : Nat :=
  if (getr st region).split = direction_t.DIR_HORIZONTAL then
    width * (getr st region).factor.toNat / 40
  else width

/-- Height given to `child0`:
`uint16_t h = height * (split == DIR_VERTICAL ? factor : 1.0f);`. -/
def vsplit_h (st : wm_state) (region : Int) (height : Nat) : Nat :=
  if (getr st region).split = direction_t.DIR_VERTICAL then
    height * (getr st region).factor.toNat / 40
  else height

/-- `refresh_layout(region, x, y, width, height)`: post-order rectangle
assignment.  A slot with a nonzero handle is configured to the whole
rectangle; otherwise `child0` gets the first `w × h` part and `child1` the
remainder along the split axis.  The C recursion has no fuel; a cyclic
(corrupted) arena would loop forever, which the model truncates to `[]`
once the fuel runs out — every theorem below supplies enough fuel for the
trees it touches. -/
def refresh_layout (st : wm_state) : Nat → Int → Nat → Nat → Nat → Nat → List x_output
  | 0, _, _, _, _, _ => []
  | fuel+1, region, x, y, width, height =>
    if (getr st region).handle ≠ 0 then
      [x_output.configure (getr st region).handle x y width height]
    else
      refresh_layout st fuel (getr st region).child0 x y
        (hsplit_w st region width) (vsplit_h st region height) ++
      refresh_layout st fuel (getr st region).child1
        (x + if (getr st region).split = direction_t.DIR_HORIZONTAL then hsplit_w st region width else 0)
        (y + if (getr st region).split = direction_t.DIR_VERTICAL then vsplit_h st region height else 0)
        (if (getr st region).split = direction_t.DIR_HORIZONTAL then width - hsplit_w st region width
         else hsplit_w st region width)
        (if (getr st region).split = direction_t.DIR_VERTICAL then height - vsplit_h st region height
         else vsplit_h st region height)

/-- The refresh call every mutator performs:
`refresh_layout(root_regions[workspace], 0, 0, screen->width_in_pixels, screen->height_in_pixels)`,
with fuel `MAX_REGIONS` (a tree stored in `MAX_REGIONS` slots has depth
below that). -/
def refresh_for (st : wm_state) : List x_output :=
  refresh_layout st MAX_REGIONS (cur_root st) 0 0 st.screen_w st.screen_h

/-- `add_region(parent_window, window)`.  Field writes follow the C
statement order exactly (this matters when the scanned `parent` slot
aliases a freshly allocated slot, which the stale-handle scan makes
possible).  `none` models the "Too many regions" / "Corrupted region tree"
aborts. -/
def add_region (st : wm_state) (parent_window window : Nat) : Option (wm_state × List x_output) :=
  if cur_root st < 0 then
    let st := updr st 0 (fun _ =>
      { handle := window, parent := -1, child0 := -1, child1 := -1,
        split := direction_t.DIR_HORIZONTAL, factor := 0, exists_ := true })
    let st := set_root st 0
    some (st, refresh_for st)
  else
    let parent0 := scan_last (fun i => (getr st i).handle == parent_window)
    let parent := if parent0 < 0 then cur_root st else parent0
    match get_empty_region st with
    | none => none
    | some new_region =>
      let st := updr st new_region (fun r => { r with exists_ := true })
      match get_empty_region st with
      | none => none
      | some new_window_region =>
        let st := updr st new_window_region (fun r => { r with exists_ := true })
        let grandparent := (getr st parent).parent
        let st := if grandparent < 0 then set_root st new_region else st
        let st := updr st parent (fun r => { r with parent := new_region })
        let st := updr st new_region (fun r =>
          { r with handle := 0, parent := grandparent,
                   child0 := (new_window_region : Int), child1 := parent,
                   split := direction_t.DIR_HORIZONTAL, factor := 20 })
        let fixed : Option wm_state :=
          if grandparent ≥ 0 then
            if (getr st grandparent).child0 = parent then
              some (updr st grandparent (fun r => { r with child0 := new_region }))
            else if (getr st grandparent).child1 = parent then
              some (updr st grandparent (fun r => { r with child1 := new_region }))
            else none
          else some st
        match fixed with
        | none => none
        | some st =>
          let st := updr st new_window_region (fun r =>
            { r with handle := window, parent := (new_region : Int),
                     child0 := -1, child1 := -1,
                     split := direction_t.DIR_HORIZONTAL, factor := 0 })
          some (st, refresh_for st)

/-- `remove_region(region)`.  The root-leaf branch reproduces the C code
verbatim: it sets `root_regions[workspace] = -1` FIRST and then clears
`regions[workspace][root_regions[workspace]].exists`, i.e. it writes at
arena index −1. -/
def remove_region (st : wm_state) (region : Int) : Option (wm_state × List x_output) :=
  let st := updr st region (fun r => { r with exists_ := false })
  let parent := (getr st region).parent
  if parent < 0 then
    if region ≠ cur_root st then none
    else
      let st := set_root st (-1)
      let st := updr st (cur_root st) (fun r => { r with exists_ := false })
      some (st, [])
  else
    let st := updr st parent (fun r => { r with exists_ := false })
    let sibling0 : Option Int :=
      if (getr st parent).child0 = region then some (getr st parent).child1
      else if (getr st parent).child1 = region then some (getr st parent).child0
      else none
    match sibling0 with
    | none => none
    | some sibling =>
      let grandparent := (getr st parent).parent
      if grandparent < 0 then
        let st := set_root st sibling
        let st := updr st sibling (fun r => { r with parent := -1 })
        some (st, refresh_for st)
      else
        let st := updr st sibling (fun r => { r with parent := grandparent })
        if (getr st grandparent).child0 = parent then
          let st := updr st grandparent (fun r => { r with child0 := sibling })
          some (st, refresh_for st)
        else if (getr st grandparent).child1 = parent then
          let st := updr st grandparent (fun r => { r with child1 := sibling })
          some (st, refresh_for st)
        else none

/-- Arena indices dereferenced by `remove_region`, in source order
(`refresh_layout`'s own reads excluded).  Mirrors the branch structure of
`remove_region`: write `region.exists`, read `region.parent`, then either
the root branch (whose last access is at `root_regions[workspace]` AFTER
it was set to −1) or the sibling-promotion branch. -/
def remove_region_accesses (st : wm_state) (region : Int) : List Int :=
  let st1 := updr st region (fun r => { r with exists_ := false })
  let parent := (getr st1 region).parent
  if parent < 0 then
    if region ≠ cur_root st1 then [region, region]
    else
      let st2 := set_root st1 (-1)
      [region, region, cur_root st2]
  else
    let st2 := updr st1 parent (fun r => { r with exists_ := false })
    if (getr st2 parent).child0 = region then
      remove_accesses_rest st2 parent ((getr st2 parent).child1)
        [region, region, parent, parent, parent]
    else if (getr st2 parent).child1 = region then
      remove_accesses_rest st2 parent ((getr st2 parent).child0)
        [region, region, parent, parent, parent, parent]
    else [region, region, parent, parent, parent]
where
  /-- Accesses from the `grandparent` read onward. -/
  remove_accesses_rest (st : wm_state) (parent sibling : Int) (acc : List Int) : List Int :=
    let grandparent := (getr st parent).parent
    let acc := acc ++ [parent]
    if grandparent < 0 then acc ++ [sibling]
    else
      let st' := updr st sibling (fun r => { r with parent := grandparent })
      let acc := acc ++ [sibling]
      if (getr st' grandparent).child0 = parent then acc ++ [grandparent, grandparent]
      else if (getr st' grandparent).child1 = parent then acc ++ [grandparent, grandparent, grandparent]
      else acc ++ [grandparent, grandparent]

/-- `handle_destroy_notify`: scan the active arena for a LIVE slot whose
handle is the destroyed window (this scan, unlike `add_region`'s, does
check `exists`); warn and return if none. -/
def handle_destroy_notify (st : wm_state) (window : Nat) : Option (wm_state × List x_output) :=
  let region := scan_last (fun i => (getr st i).exists_ && (getr st i).handle == window)
  if region < 0 then some (st, [x_output.warn])
  else remove_region st region

/-- `handle_keymap_togglesplitdir`: find the LAST slot (live or not!) whose
handle equals `event->child`, flip its parent's split direction, refresh. -/
def handle_keymap_togglesplitdir (st : wm_state) (child : Nat) : wm_state × List x_output :=
  let region := scan_last (fun i => (getr st i).handle == child)
  if region < 0 then (st, [])
  else
    let parent := (getr st region).parent
    if parent < 0 then (st, [])
    else
      let st := updr st parent (fun r =>
        { r with split := if r.split = direction_t.DIR_HORIZONTAL
                          then direction_t.DIR_VERTICAL else direction_t.DIR_HORIZONTAL })
      (st, refresh_for st)

/-- `handle_keymap_incsplitfactor`: find the LAST slot whose handle equals
`event->child`, then
`factor += delta; if (factor > 1 - delta) factor = 1 - delta; if (factor < delta) factor = delta;`
— note both clamp bounds use the SIGNED `delta` (`data.f32`), not its
absolute value.  `delta` in fortieths (the keymap passes ±1). -/
def handle_keymap_incsplitfactor (st : wm_state) (child : Nat) (delta : Int) : wm_state × List x_output :=
  let region := scan_last (fun i => (getr st i).handle == child)
  if region < 0 then (st, [])
  else
    let parent := (getr st region).parent
    if parent < 0 then (st, [])
    else
      let st := updr st parent (fun r =>
        let f1 := r.factor + delta
        let f2 := if f1 > 40 - delta then 40 - delta else f1
        let f3 := if f2 < delta then delta else f2
        { r with factor := f3 })
      (st, refresh_for st)

/-- The arena slot whose factor `handle_keymap_incsplitfactor` updates, if
any: the parent of the last slot carrying `child`, when that parent index
is non-negative. -/
def inc_target (st : wm_state) (child : Nat) : Option Int :=
  let region := scan_last (fun i => (getr st i).handle == child)
  if region < 0 then none
  else
    let parent := (getr st region).parent
    if parent < 0 then none else some parent

/-- `handle_keymap_workspace`: unmap every live, handle-bearing slot of the
current workspace, set `workspace = target`, map every live handle-bearing
slot of the new one, and refresh it unless its tree is empty. -/
def handle_keymap_workspace (st : wm_state) (target : Int) : wm_state × List x_output :=
  let unmaps := (List.range MAX_REGIONS).filterMap (fun i =>
    if (st.regions st.workspace i).exists_ ∧ (st.regions st.workspace i).handle ≠ 0
    then some (x_output.unmap_window (st.regions st.workspace i).handle) else none)
  let st' := { st with workspace := target }
  let maps := (List.range MAX_REGIONS).filterMap (fun i =>
    if (st'.regions st'.workspace i).exists_ ∧ (st'.regions st'.workspace i).handle ≠ 0
    then some (x_output.map_window (st'.regions st'.workspace i).handle) else none)
  (st', unmaps ++ maps ++ (if cur_root st' < 0 then [] else refresh_for st'))

/-- Action tags of the shortcut table (`spawnprocess` payloads abstracted
to a tag: 0 = `termargv`, 1 = `dmenuargv`). -/
inductive keymap_action
  | quit
  | close
  | spawnprocess (argv : Nat)
  | togglesplitdir
  | incsplitfactor (delta : Int)
  | workspace_switch (index : Int)
deriving DecidableEq

/-- One shortcut entry `(modifiers, keysym, handler, data)`. -/
structure keymap_t where
  modifiers : Nat
  keysym : Nat
  action : keymap_action
deriving DecidableEq

/-- Placeholder entry for out-of-range `List.getD` reads. -/
def default_keymap : keymap_t :=
  { modifiers := 0, keysym := 0, action := keymap_action.quit }

/-- The `KEYMAPS[]` table.  Modifier masks: SHIFT = 1, MOD1 = 8 (so
MOD1|SHIFT = 9).  Keysyms are the XKB codes: `c` 0x63, `q` 0x71,
`Return` 0xff0d, `d` 0x64, `k` 0x6b, `l` 0x6c, `h` 0x68, `0`–`9`
0x30–0x39.  `incsplitfactor` deltas are ±RESIZE_FACTOR (fortieths). -/
def KEYMAPS : List keymap_t :=
  [ { modifiers := 9, keysym := 0x63, action := keymap_action.quit },
    { modifiers := 9, keysym := 0x71, action := keymap_action.close },
    { modifiers := 8, keysym := 0xff0d, action := keymap_action.spawnprocess 0 },
    { modifiers := 8, keysym := 0x64, action := keymap_action.spawnprocess 1 },
    { modifiers := 8, keysym := 0x6b, action := keymap_action.togglesplitdir },
    { modifiers := 8, keysym := 0x6c, action := keymap_action.incsplitfactor RESIZE_FACTOR },
    { modifiers := 8, keysym := 0x68, action := keymap_action.incsplitfactor (-RESIZE_FACTOR) },
    { modifiers := 8, keysym := 0x30, action := keymap_action.workspace_switch 0 },
    { modifiers := 8, keysym := 0x31, action := keymap_action.workspace_switch 1 },
    { modifiers := 8, keysym := 0x32, action := keymap_action.workspace_switch 2 },
    { modifiers := 8, keysym := 0x33, action := keymap_action.workspace_switch 3 },
    { modifiers := 8, keysym := 0x34, action := keymap_action.workspace_switch 4 },
    { modifiers := 8, keysym := 0x35, action := keymap_action.workspace_switch 5 },
    { modifiers := 8, keysym := 0x36, action := keymap_action.workspace_switch 6 },
    { modifiers := 8, keysym := 0x37, action := keymap_action.workspace_switch 7 },
    { modifiers := 8, keysym := 0x38, action := keymap_action.workspace_switch 8 },
    { modifiers := 8, keysym := 0x39, action := keymap_action.workspace_switch 9 } ]

/-- `handle_key_press`: run every entry whose modifier mask has a nonzero
bitwise AND with the event state and whose keysym matches, in table order
(`for (i = 0; i < NUM_KEYMAPS; i++) if ((event->state & mods) && keysym == sym) handler(...)`).
Returns the indices of the entries whose handlers run, in execution
order. -/
def handle_key_press_fired (state keysym : Nat) : List Nat :=
  (List.range KEYMAPS.length).foldl (fun acc i =>
    if state &&& (KEYMAPS.getD i default_keymap).modifiers ≠ 0 ∧
       keysym = (KEYMAPS.getD i default_keymap).keysym
    then acc ++ [i] else acc) []

/-! Concrete scenario states.  Window handles are nonzero X ids; `999` is
a parent hint matched by no slot (forcing the fall-back-to-root path, as
happens in practice when `event->parent` is the X root window). -/

/-- The startup state with an 800×600 screen (the claims' screen). -/
def st800 : wm_state := initial_state 800 600

/-- `add_region`, keeping only the state (`none` propagates aborts). -/
def add1 (st : wm_state) (p w : Nat) : Option wm_state := (add_region st p w).map Prod.fst

/-- `handle_destroy_notify`, keeping only the state. -/
def destroy1 (st : wm_state) (w : Nat) : Option wm_state :=
  (handle_destroy_notify st w).map Prod.fst

/-- State after `add(0, W1)`, `add(W1, W2)`, `add(W2, W3)` on the empty
workspace, with W1 = 1, W2 = 2, W3 = 3 (the C1 scenario). -/
def c1_st : wm_state :=
  (((add1 st800 0 1).bind (fun s => add1 s 1 2)).bind (fun s => add1 s 2 3)).getD st800

/-- State after `add(999, W1)`, `add(999, W2)`, destroy W1, destroy W2,
`add(999, W3)`: the live tree is the single leaf W3 at slot 0 (the root),
while freed slot 2 still carries the stale handle W2 = 2 with stale
parent −1. -/
def c5_st3 : wm_state :=
  (((((add1 st800 999 1).bind (fun s => add1 s 999 2)).bind
      (fun s => destroy1 s 1)).bind (fun s => destroy1 s 2)).bind
      (fun s => add1 s 999 3)).getD st800

/-- `c5_st3` after `add(W2, W4)`: the stale-handle scan picks freed slot 2
as the sibling instead of falling back to the root. -/
def c5_st4 : wm_state := (add1 c5_st3 2 4).getD st800

/-- `c5_st4` after destroying W4 again: the remove of the window added
last does not restore the tree shape. -/
def c6_final : wm_state := (destroy1 c5_st4 4).getD st800

/-- Single-window workspace (root leaf W1 = 1 at slot 0). -/
def c10_st : wm_state := (add1 st800 0 1).getD st800

/-- `handle_keymap_incsplitfactor`, keeping only the state. -/
def inc1 (st : wm_state) (child : Nat) (delta : Int) : wm_state :=
  (handle_keymap_incsplitfactor st child delta).1

/-- Fold a list of `(event->child, delta)` adjust-factor calls. -/
def apply_incs : wm_state → List (Nat × Int) → wm_state
  | st, [] => st
  | st, c :: cs => apply_incs (inc1 st c.1 c.2) cs

/-- Two-window workspace: slots 0 (leaf W1), 1 (the split, factor 20/40),
2 (leaf W2); root 1. -/
def c2_base : wm_state := ((add1 st800 999 1).bind (fun s => add1 s 999 2)).getD st800

/-- `c2_base` after 19 MOD1+h presses on W2 (delta −1/40 each): the split
factor reaches the claimed lower bound 1/40. -/
def c2_pre : wm_state := apply_incs c2_base (List.replicate 19 (2, -RESIZE_FACTOR))

/-- `c2_pre` after one more MOD1+h press. -/
def c2_final : wm_state := inc1 c2_pre 2 (-RESIZE_FACTOR)

/-- Single-window workspace for the C8 counterexample. -/
def c8_st : wm_state := (add1 st800 999 1).getD st800

/-- Two-window workspace for the C9 counterexample. -/
def c9_st : wm_state := c2_base

/-! Claim theorems: concrete evaluations. -/

/-- C1, counterexample: in the scenario `add(0,W1); add(W1,W2); add(W2,W3)`
refreshed against (0,0,800,600), the configures are NOT the claimed
W3 ↦ (0,0,400,600), W2 ↦ (400,0,200,600), W1 ↦ (600,0,200,600); in
particular W3 is never given (0,0,400,600). -/
theorem c1_counterexample :
    refresh_for c1_st ≠
      [x_output.configure 3 0 0 400 600, x_output.configure 2 400 0 200 600,
       x_output.configure 1 600 0 200 600] ∧
    x_output.configure 3 0 0 400 600 ∉ refresh_for c1_st := by
  constructor
  · decide
  · decide

/-- C1, amended: since `add(W2, W3)` splits W2's own region (the leaf whose
handle equals the hint), the scenario's geometry under (0,0,800,600) is
W3 ↦ (0,0,200,600), W2 ↦ (200,0,200,600), W1 ↦ (400,0,400,600). -/
theorem c1_amended_geometry :
    refresh_for c1_st =
      [x_output.configure 3 0 0 200 600, x_output.configure 2 200 0 200 600,
       x_output.configure 1 400 0 400 600] := by
  decide

/-- C5, code bug: in `c5_st3` no LIVE leaf carries the hint W2 = 2 (slot 2
is freed but keeps the stale handle), and the live tree is the single root
leaf W3 at slot 0 — so per the claim the insertion should attach at the
root.  Instead `add_region`'s scan (which ignores `exists`) picks the dead
slot: afterwards the new split (slot 1) has BOTH children equal to slot 2,
the root leaf W3 stays live at slot 0 with parent −1 but is no longer the
root and is unreachable, and the refresh configures W4 twice and W3 never. -/
theorem c5_stale_scan_bug :
    (getr c5_st3 2).exists_ = false ∧ (getr c5_st3 2).handle = 2 ∧
    cur_root c5_st3 = 0 ∧ (getr c5_st3 0).handle = 3 ∧
    (∀ i : Nat, i < MAX_REGIONS → (getr c5_st3 i).exists_ = true → (getr c5_st3 i).handle ≠ 2) ∧
    cur_root c5_st4 = 1 ∧
    (getr c5_st4 1).child0 = 2 ∧ (getr c5_st4 1).child1 = 2 ∧
    (getr c5_st4 0).exists_ = true ∧ (getr c5_st4 0).parent = -1 ∧
    refresh_for c5_st4 =
      [x_output.configure 4 0 0 400 600, x_output.configure 4 400 0 400 600] := by
  refine ⟨by decide, by decide, by decide, by decide, by decide, by decide,
    by decide, by decide, by decide, by decide, by decide⟩

/-- C6, code bug: before `add(W2, W4)` the tree of `c5_st3` is the single
live root leaf W3 at slot 0 (root index 0).  After `add(W2, W4)` followed
by the removal of W4's leaf, the root index is 2 — a freed slot — so the
add/remove pair does not return the tree to its previous shape. -/
theorem c6_add_remove_not_roundtrip :
    cur_root c5_st3 = 0 ∧ (getr c5_st3 0).exists_ = true ∧ (getr c5_st3 0).handle = 3 ∧
    cur_root c6_final = 2 ∧ (getr c6_final 2).exists_ = false ∧
    (getr c6_final 0).exists_ = true ∧ (getr c6_final 0).handle = 3 := by
  refine ⟨by decide, by decide, by decide, by decide, by decide, by decide, by decide⟩

/-- C10, code bug: removing the root leaf (slot 0 of a single-window
workspace) dereferences arena indices 0, 0 and then −1 — the C line
`regions[workspace][root_regions[workspace]].exists = false;` executed
after `root_regions[workspace]` was already set to −1 — contradicting the
claim that every index stays in `[0, MAX_REGIONS)`. -/
theorem c10_negative_index :
    cur_root c10_st = 0 ∧ (getr c10_st 0).parent = -1 ∧
    remove_region_accesses c10_st 0 = [0, 0, -1] := by
  refine ⟨by decide, by decide, by decide⟩

/-- C2, counterexample: slot 1 of `c2_base` is a live internal split
(handle 0) whose factor is 20 fortieths (0.5).  After 19 presses of MOD1+h
(delta = −0.025) the factor is 1 fortieth — the claimed lower bound
`|delta|`.  One more press yields 0, not `clamp(0.025 − 0.025, 0.025, 0.975)
= 0.025`: the code clamps with the SIGNED delta, so the factor of a live
internal split drops below `factor_min`. -/
theorem c2_counterexample :
    (getr c2_base 1).exists_ = true ∧ (getr c2_base 1).handle = 0 ∧
    (getr c2_base 1).factor = 20 ∧
    (getr c2_pre 1).factor = RESIZE_FACTOR ∧
    (getr c2_final 1).exists_ = true ∧
    (getr c2_final 1).factor = 0 ∧ (0 : Int) < RESIZE_FACTOR := by
  refine ⟨by decide, by decide, by decide, by decide, by decide, by decide, by decide⟩

/-- C8, counterexample: in the single-window workspace `c8_st` the handle 0
is carried by no live slot at all (so certainly by no live leaf), yet
toggle-split-direction invoked with child handle 0 is NOT a silent no-op:
the scan (which ignores `exists`) returns the zero-initialised slot 99,
whose zero-initialised parent field is 0, so the split field of slot 0 —
the live root leaf — is flipped and a refresh is issued. -/
theorem c8_counterexample :
    (∀ i : Nat, i < MAX_REGIONS → (getr c8_st i).exists_ = true → (getr c8_st i).handle ≠ 0) ∧
    (getr c8_st 0).exists_ = true ∧
    (getr c8_st 0).split = direction_t.DIR_HORIZONTAL ∧
    (getr (handle_keymap_togglesplitdir c8_st 0).1 0).split = direction_t.DIR_VERTICAL ∧
    (handle_keymap_togglesplitdir c8_st 0).2 ≠ [] := by
  refine ⟨by decide, by decide, by decide, by decide, by decide⟩

/-- C9, counterexample: in the two-window workspace `c9_st` no live LEAF
carries the handle 0 (leaf handles are nonzero), yet a DESTROY_NOTIFY with
window id 0 matches the live internal split (whose handle field is 0):
the handler removes it — the root index changes from 1 to −1 — and no
warning is logged. -/
theorem c9_counterexample :
    (∀ i : Nat, i < MAX_REGIONS →
      (getr c9_st i).exists_ = true → (getr c9_st i).child0 = -1 → (getr c9_st i).handle ≠ 0) ∧
    cur_root c9_st = 1 ∧
    (handle_destroy_notify c9_st 0).map (fun p => (cur_root p.1, p.2)) = some (-1, []) := by
  refine ⟨by decide, by decide, by decide⟩

/-! Scan characterisation lemmas. -/

/-- A last-match fold over indices none of which satisfy the predicate
keeps its accumulator. -/
theorem foldl_keep_last_of_none (p : Nat → Bool) :
    ∀ (l : List Nat) (acc : Int), (∀ i ∈ l, p i = false) →
      l.foldl (fun a i => if p i then (i : Int) else a) acc = acc := by
  intro l
  induction l with
  | nil => intro acc _; rfl
  | cons x xs ih =>
    intro acc h
    have hx : p x = false := h x (List.mem_cons_self x xs)
    simp only [List.foldl_cons, hx, if_false, Bool.false_eq_true]
    exact ih acc fun i hi => h i (List.mem_cons_of_mem x hi)

/-- The C scan returns −1 when no index in range matches. -/
theorem scan_last_eq_neg_one (p : Nat → Bool) (h : ∀ i, i < MAX_REGIONS → p i = false) :
    scan_last p = -1 :=
  foldl_keep_last_of_none p _ _ fun i hi => h i (List.mem_range.mp hi)

/-- A fold that appends every matching index equals the filter of the
scanned list (the matches, in scan order). -/
theorem foldl_append_eq_filter (p : Nat → Prop) [DecidablePred p] :
    ∀ (l : List Nat) (acc : List Nat),
      l.foldl (fun a i => if p i then a ++ [i] else a) acc = acc ++ l.filter (fun i => decide (p i)) := by
  intro l
  induction l with
  | nil => intro acc; simp
  | cons x xs ih =>
    intro acc
    by_cases hx : p x <;> simp [List.foldl_cons, List.filter_cons, hx, ih]

/-- C3: on KEY_PRESS the entries that run are exactly those whose modifier
mask has a nonzero bitwise AND with the event's modifier state (the
spec's sense of "contains": `(event->state & mask)` nonzero) and whose
keysym equals the event's resolved keysym; they run in table order (the
fired list is the in-order filter of the table's indices). -/
theorem c3_key_press_dispatch (state keysym : Nat) :
    handle_key_press_fired state keysym =
      (List.range KEYMAPS.length).filter (fun i =>
        decide (state &&& (KEYMAPS.getD i default_keymap).modifiers ≠ 0 ∧
                keysym = (KEYMAPS.getD i default_keymap).keysym)) ∧
    ∀ i : Nat, i ∈ handle_key_press_fired state keysym ↔
      (i < KEYMAPS.length ∧ state &&& (KEYMAPS.getD i default_keymap).modifiers ≠ 0 ∧
       keysym = (KEYMAPS.getD i default_keymap).keysym) := by
  have h := foldl_append_eq_filter
    (fun i => state &&& (KEYMAPS.getD i default_keymap).modifiers ≠ 0 ∧
              keysym = (KEYMAPS.getD i default_keymap).keysym)
    (List.range KEYMAPS.length) []
  have hfired : handle_key_press_fired state keysym =
      (List.range KEYMAPS.length).filter (fun i =>
        decide (state &&& (KEYMAPS.getD i default_keymap).modifiers ≠ 0 ∧
                keysym = (KEYMAPS.getD i default_keymap).keysym)) := by
    simpa [handle_key_press_fired] using h
  refine ⟨hfired, fun i => ?_⟩
  rw [hfired]
  simp [List.mem_filter, List.mem_range, and_assoc]

/-- C8, amended: when NO arena slot of the active workspace — live or
freed — carries the given handle, toggle-split-direction and
adjust-split-factor are silent no-ops: the scan finds nothing, the state
is returned unchanged and no request is issued.  (The original claim's
premise, "no LIVE leaf carries the handle", is refuted by
`c8_counterexample`: the scans ignore `exists`.) -/
theorem c8_amended (st : wm_state) (child : Nat) (delta : Int)
    (h : ∀ i : Nat, i < MAX_REGIONS → (getr st i).handle ≠ child) :
    handle_keymap_togglesplitdir st child = (st, []) ∧
    handle_keymap_incsplitfactor st child delta = (st, []) := by
  have hscan : scan_last (fun i => (getr st i).handle == child) = -1 :=
    scan_last_eq_neg_one _ fun i hi => by simp [h i hi]
  constructor
  · unfold handle_keymap_togglesplitdir
    rw [hscan]
    norm_num
  · unfold handle_keymap_incsplitfactor
    rw [hscan]
    norm_num

/-- C8, witness: in the startup state no slot carries handle 5, and both
actions leave the state unchanged with no output. -/
theorem c8_witness :
    (∀ i : Nat, i < MAX_REGIONS → (getr (initial_state 1 1) i).handle ≠ 5) ∧
    handle_keymap_togglesplitdir (initial_state 1 1) 5 = (initial_state 1 1, []) ∧
    handle_keymap_incsplitfactor (initial_state 1 1) 5 RESIZE_FACTOR = (initial_state 1 1, []) :=
  ⟨by decide, (c8_amended (initial_state 1 1) 5 RESIZE_FACTOR (by decide)).1,
    (c8_amended (initial_state 1 1) 5 RESIZE_FACTOR (by decide)).2⟩

/-- C9, amended: when no LIVE slot at all of the active workspace — leaf
or internal — carries the destroyed window as its handle, the
DESTROY_NOTIFY handler logs a warning and leaves the state completely
unchanged, without aborting.  (The original claim's premise, which only
excluded live LEAVES, is refuted by `c9_counterexample` with window id 0,
which internal nodes carry.) -/
theorem c9_amended (st : wm_state) (window : Nat)
    (h : ∀ i : Nat, i < MAX_REGIONS →
      ¬((getr st i).exists_ = true ∧ (getr st i).handle = window)) :
    handle_destroy_notify st window = some (st, [x_output.warn]) := by
  have hscan : scan_last (fun i => (getr st i).exists_ && (getr st i).handle == window) = -1 := by
    refine scan_last_eq_neg_one _ fun i hi => ?_
    have hi' := h i hi
    cases hx : (getr st i).exists_ with
    | false => simp
    | true =>
      simp only [hx, true_and] at hi'
      simp [hi']
  unfold handle_destroy_notify
  rw [hscan]
  norm_num

/-- C9, witness: destroying window 7 against the startup state (no live
slots) warns and changes nothing. -/
theorem c9_witness :
    (∀ i : Nat, i < MAX_REGIONS →
      ¬((getr (initial_state 1 1) i).exists_ = true ∧ (getr (initial_state 1 1) i).handle = 7)) ∧
    handle_destroy_notify (initial_state 1 1) 7 = some (initial_state 1 1, [x_output.warn]) :=
  ⟨by decide, c9_amended (initial_state 1 1) 7 (by decide)⟩

/-! Adjust-split-factor: per-call characterisation and factor bounds. -/

/-- Reading through a single-slot write. -/
theorem getr_updr (st : wm_state) (j : Int) (f : region_t → region_t) (i : Int) :
    getr (updr st j f) i = if i = j then f (getr st i) else getr st i := by
  by_cases h : i = j <;> simp [updr, getr, h]

/-- `handle_keymap_incsplitfactor` leaves every slot's factor unchanged
except the one `inc_target` names, which receives the C code's two-step
clamp of `factor + delta` (both bounds using the signed `delta`). -/
theorem inc1_factor (st : wm_state) (child : Nat) (delta : Int) (i : Int) :
    (getr (inc1 st child delta) i).factor =
      if inc_target st child = some i then
        (if (if (getr st i).factor + delta > 40 - delta then 40 - delta
             else (getr st i).factor + delta) < delta then delta
         else (if (getr st i).factor + delta > 40 - delta then 40 - delta
               else (getr st i).factor + delta))
      else (getr st i).factor := by
  unfold inc1 handle_keymap_incsplitfactor inc_target
  by_cases h1 : scan_last (fun k => (getr st k).handle == child) < 0
  · simp [h1]
  · by_cases h2 : (getr st (scan_last fun k => (getr st k).handle == child)).parent < 0
    · simp [h1, h2]
    · simp only [h1, h2, if_false]
      rw [getr_updr]
      by_cases h3 : i = (getr st (scan_last fun k => (getr st k).handle == child)).parent
      · simp [h3]
      · have h3' : ¬(getr st (scan_last fun k => (getr st k).handle == child)).parent = i :=
          fun hx => h3 hx.symm
        simp [h3, h3']

/-- The two sequential clamp assignments equal a `clamp` to
`[delta, 40 − delta]` whenever `delta ≤ 1/2` (all configured deltas are
±1/40). -/
theorem clamp_steps_eq (f delta : Int) (h : delta ≤ 20) :
    (if (if f + delta > 40 - delta then 40 - delta else f + delta) < delta then delta
     else (if f + delta > 40 - delta then 40 - delta else f + delta)) =
    max delta (min (40 - delta) (f + delta)) := by
  split_ifs <;> omega

/-- Any sequence of adjust-factor calls with the configured deltas ±1/40
keeps every slot's factor inside `[−1/40, 39/40]` (fortieths:
`[−RESIZE_FACTOR, 40 − RESIZE_FACTOR]`). -/
theorem apply_incs_bounds (calls : List (Nat × Int)) :
    ∀ st : wm_state,
      (∀ c ∈ calls, c.2 = RESIZE_FACTOR ∨ c.2 = -RESIZE_FACTOR) →
      (∀ i : Int, -RESIZE_FACTOR ≤ (getr st i).factor ∧
        (getr st i).factor ≤ 40 - RESIZE_FACTOR) →
      ∀ i : Int, -RESIZE_FACTOR ≤ (getr (apply_incs st calls) i).factor ∧
        (getr (apply_incs st calls) i).factor ≤ 40 - RESIZE_FACTOR := by
  induction calls with
  | nil => intro st _ hinit; exact hinit
  | cons c cs ih =>
    intro st hdeltas hinit
    show ∀ i : Int, -RESIZE_FACTOR ≤ (getr (apply_incs (inc1 st c.1 c.2) cs) i).factor ∧
      (getr (apply_incs (inc1 st c.1 c.2) cs) i).factor ≤ 40 - RESIZE_FACTOR
    refine ih _ (fun d hd => hdeltas d (List.mem_cons_of_mem _ hd)) ?_
    intro j
    rw [inc1_factor]
    rcases hdeltas c (List.mem_cons_self _ _) with hd | hd <;>
      rcases hinit j with ⟨hb1, hb2⟩ <;>
        rw [hd] <;> simp only [RESIZE_FACTOR] at * <;> split_ifs <;> omega

/-- C2, amended: `adjust_factor` sets the chosen parent's factor to
`clamp(factor + delta, delta, 1 − delta)` — the clamp bounds use the
SIGNED delta, not `|delta|` — and leaves every other slot's factor alone;
consequently, under the configured deltas ±0.025 every factor stays in
`[−0.025, 0.975]` (not the claimed `[0.025, 0.975]`; `c2_counterexample`
reaches 0).  Factors in fortieths. -/
theorem c2_amended (st : wm_state) (calls : List (Nat × Int))
    (hdeltas : ∀ c ∈ calls, c.2 = RESIZE_FACTOR ∨ c.2 = -RESIZE_FACTOR)
    (hinit : ∀ i : Int, -RESIZE_FACTOR ≤ (getr st i).factor ∧
      (getr st i).factor ≤ 40 - RESIZE_FACTOR) :
    (∀ i : Int, -RESIZE_FACTOR ≤ (getr (apply_incs st calls) i).factor ∧
      (getr (apply_incs st calls) i).factor ≤ 40 - RESIZE_FACTOR) ∧
    (∀ (st' : wm_state) (child : Nat) (delta : Int), delta ≤ 20 → ∀ i : Int,
      (getr (inc1 st' child delta) i).factor =
        if inc_target st' child = some i
        then max delta (min (40 - delta) ((getr st' i).factor + delta))
        else (getr st' i).factor) := by
  refine ⟨apply_incs_bounds calls st hdeltas hinit, fun st' child delta hdelta i => ?_⟩
  rw [inc1_factor]
  by_cases ht : inc_target st' child = some i
  · rw [if_pos ht, if_pos ht, clamp_steps_eq _ _ hdelta]
  · rw [if_neg ht, if_neg ht]

/-- C2, witness: one MOD1+l press against the startup state (all factors
0). -/
theorem c2_witness :
    (∀ c ∈ [((5 : Nat), RESIZE_FACTOR)], c.2 = RESIZE_FACTOR ∨ c.2 = -RESIZE_FACTOR) ∧
    (∀ i : Int, -RESIZE_FACTOR ≤ (getr (initial_state 1 1) i).factor ∧
      (getr (initial_state 1 1) i).factor ≤ 40 - RESIZE_FACTOR) ∧
    ((∀ i : Int,
        -RESIZE_FACTOR ≤ (getr (apply_incs (initial_state 1 1) [((5 : Nat), RESIZE_FACTOR)]) i).factor ∧
        (getr (apply_incs (initial_state 1 1) [((5 : Nat), RESIZE_FACTOR)]) i).factor ≤ 40 - RESIZE_FACTOR) ∧
     (∀ (st' : wm_state) (child : Nat) (delta : Int), delta ≤ 20 → ∀ i : Int,
        (getr (inc1 st' child delta) i).factor =
          if inc_target st' child = some i
          then max delta (min (40 - delta) ((getr st' i).factor + delta))
          else (getr st' i).factor)) :=
  ⟨by decide,
   fun i => by norm_num [getr, initial_state, region_zero, RESIZE_FACTOR],
   c2_amended (initial_state 1 1) [((5 : Nat), RESIZE_FACTOR)] (by decide)
     (fun i => by norm_num [getr, initial_state, region_zero, RESIZE_FACTOR])⟩

/-! Workspace switching. -/

/-- The map requests in an output list, in order. -/
def maps_of (l : List x_output) : List Nat :=
  l.filterMap fun o => match o with
    | x_output.map_window w => some w
    | _ => none

/-- The handles of the live, handle-bearing slots (the leaves) of
workspace `w`, in slot order — the windows `handle_keymap_workspace` maps
when switching to `w`. -/
def leaf_handles (st : wm_state) (w : Int) : List Nat :=
  (List.range MAX_REGIONS).filterMap fun i =>
    if (st.regions w i).exists_ ∧ (st.regions w i).handle ≠ 0
    then some (st.regions w i).handle else none

/-- `maps_of` distributes over append. -/
theorem maps_of_append (a b : List x_output) : maps_of (a ++ b) = maps_of a ++ maps_of b :=
  List.filterMap_append a b _

/-- The unmap chunk of a workspace switch contributes no map requests. -/
theorem maps_of_unmap_chunk (g : Int → Int → region_t) (w : Int) :
    ∀ l : List Nat,
      maps_of (l.filterMap fun i : Nat =>
        if (g w (i : Int)).exists_ ∧ (g w (i : Int)).handle ≠ 0
        then some (x_output.unmap_window (g w (i : Int)).handle) else none) = [] := by
  intro l
  induction l with
  | nil => rfl
  | cons x xs ih =>
    rw [List.filterMap_cons]
    by_cases hx : (g w (x : Int)).exists_ ∧ (g w (x : Int)).handle ≠ 0
    · rw [if_pos hx]
      show maps_of (x_output.unmap_window (g w (x : Int)).handle :: _) = []
      unfold maps_of
      rw [List.filterMap_cons]
      exact ih
    · rw [if_neg hx]
      exact ih

/-- A refresh contributes no map requests. -/
theorem maps_of_refresh (st : wm_state) :
    ∀ (fuel : Nat) (region : Int) (x y w h : Nat),
      maps_of (refresh_layout st fuel region x y w h) = [] := by
  intro fuel
  induction fuel with
  | zero => intro region x y w h; rfl
  | succ n ih =>
    intro region x y w h
    by_cases hh : (getr st region).handle ≠ 0
    · simp only [refresh_layout, if_pos hh]
      rfl
    · simp only [refresh_layout, if_neg hh]
      rw [maps_of_append, ih, ih]
      rfl

/-- The map chunk of a workspace switch maps exactly the live
handle-bearing slots' handles, in slot order. -/
theorem maps_of_map_chunk (g : Int → Int → region_t) (w : Int) :
    ∀ l : List Nat,
      maps_of (l.filterMap fun i : Nat =>
        if (g w (i : Int)).exists_ ∧ (g w (i : Int)).handle ≠ 0
        then some (x_output.map_window (g w (i : Int)).handle) else none) =
      l.filterMap fun i : Nat =>
        if (g w (i : Int)).exists_ ∧ (g w (i : Int)).handle ≠ 0
        then some (g w (i : Int)).handle else none := by
  intro l
  induction l with
  | nil => rfl
  | cons x xs ih =>
    rw [List.filterMap_cons, List.filterMap_cons]
    by_cases hx : (g w (x : Int)).exists_ ∧ (g w (x : Int)).handle ≠ 0
    · rw [if_pos hx, if_pos hx]
      exact congrArg (fun t => (g w (x : Int)).handle :: t) ih
    · rw [if_neg hx, if_neg hx]
      exact ih

/-- A single workspace switch maps exactly the handles of the live
handle-bearing slots (the leaves) of the target workspace's arena, in
slot order. -/
theorem maps_of_workspace_switch (st : wm_state) (target : Int) :
    maps_of (handle_keymap_workspace st target).2 = leaf_handles st target := by
  show maps_of
    (((List.range MAX_REGIONS).filterMap fun i : Nat =>
        if (st.regions st.workspace (i : Int)).exists_ ∧ (st.regions st.workspace (i : Int)).handle ≠ 0
        then some (x_output.unmap_window (st.regions st.workspace (i : Int)).handle) else none) ++
      ((List.range MAX_REGIONS).filterMap fun i : Nat =>
        if (st.regions target (i : Int)).exists_ ∧ (st.regions target (i : Int)).handle ≠ 0
        then some (x_output.map_window (st.regions target (i : Int)).handle) else none) ++ _)
    = leaf_handles st target
  rw [maps_of_append, maps_of_append, maps_of_unmap_chunk st.regions st.workspace,
    maps_of_map_chunk st.regions target]
  have hrefresh : ∀ l : List x_output,
      maps_of (if cur_root { st with workspace := target } < 0 then [] else refresh_for { st with workspace := target }) = [] := by
    intro _
    split
    · rfl
    · exact maps_of_refresh _ _ _ _ _ _ _
  rw [hrefresh []]
  rw [List.append_nil, List.nil_append]
  rfl

/-- C7: switching from the active workspace A to any workspace and then
back to A leaves the whole region state (every arena and every root
index) unchanged, restores A as the active workspace, and the second
switch maps exactly the handles of the live leaves of A's tree.
(`handle_keymap_workspace` never writes a region slot or root index; the
only mutation is the active-workspace variable.) -/
theorem c7_workspace_roundtrip (st : wm_state) (target : Int) :
    (handle_keymap_workspace (handle_keymap_workspace st target).1 st.workspace).1.regions
      = st.regions ∧
    (handle_keymap_workspace (handle_keymap_workspace st target).1 st.workspace).1.root_regions
      = st.root_regions ∧
    (handle_keymap_workspace (handle_keymap_workspace st target).1 st.workspace).1.workspace
      = st.workspace ∧
    maps_of (handle_keymap_workspace (handle_keymap_workspace st target).1 st.workspace).2
      = leaf_handles st st.workspace := by
  refine ⟨rfl, rfl, rfl, ?_⟩
  have h := maps_of_workspace_switch (handle_keymap_workspace st target).1 st.workspace
  exact h.trans rfl

/-! Refresh geometry: the leaf rectangles partition the screen. -/

/-- Area of a configure request (other outputs contribute nothing). -/
def out_area : x_output → Nat
  | x_output.configure _ _ _ w h => w * h
  | _ => 0

/-- Sum of the configured rectangle areas. -/
def area_sum (l : List x_output) : Nat := (l.map out_area).sum

/-- Whether a configure request's rectangle contains the pixel
`(px, py)` (half-open on the right and bottom). -/
def out_contains (px py : Nat) : x_output → Bool
  | x_output.configure _ x y w h =>
      decide (x ≤ px) && decide (px < x + w) && decide (y ≤ py) && decide (py < y + h)
  | _ => false

/-- How many of the configured rectangles contain the pixel `(px, py)`. -/
def count_containing (l : List x_output) (px py : Nat) : Nat :=
  l.countP (out_contains px py)

/-- Well-formedness of the subtree rooted at `region`, to depth `fuel`
(the claim's hypotheses): index in range, slot live, and every internal
node (handle 0) has its factor within the claimed
`[factor_min, 1 − factor_min]` — `[1, 39]` fortieths — and well-formed
children. -/
def wf_tree (st : wm_state) : Nat → Int → Bool
  | 0, _ => false
  | fuel+1, region =>
    decide (0 ≤ region) && decide (region < (MAX_REGIONS : Int)) && (getr st region).exists_ &&
    (if (getr st region).handle ≠ 0 then true
     else
       decide (RESIZE_FACTOR ≤ (getr st region).factor) &&
       decide ((getr st region).factor ≤ 40 - RESIZE_FACTOR) &&
       wf_tree st fuel (getr st region).child0 &&
       wf_tree st fuel (getr st region).child1)

/-- `area_sum` distributes over append. -/
theorem area_sum_append (a b : List x_output) :
    area_sum (a ++ b) = area_sum a + area_sum b := by
  simp [area_sum]

/-- `count_containing` distributes over append. -/
theorem count_containing_append (a b : List x_output) (px py : Nat) :
    count_containing (a ++ b) px py = count_containing a px py + count_containing b px py := by
  simp [count_containing, List.countP_append]

/-- Partition invariant of `refresh_layout`, by induction on the fuel:
over a well-formed subtree the configured areas sum to the rectangle's
area and every pixel of the rectangle lies in exactly one configured
rectangle (pixels outside lie in none). -/
theorem refresh_partition_aux (st : wm_state) :
    ∀ (fuel : Nat) (region : Int) (x y width height : Nat),
      wf_tree st fuel region = true →
      area_sum (refresh_layout st fuel region x y width height) = width * height ∧
      ∀ px py : Nat,
        count_containing (refresh_layout st fuel region x y width height) px py =
          if x ≤ px ∧ px < x + width ∧ y ≤ py ∧ py < y + height then 1 else 0 := by
  intro fuel
  induction fuel with
  | zero =>
    intro region x y width height hwf
    exact absurd hwf (by simp [wf_tree])
  | succ n ih =>
    intro region x y width height hwf
    by_cases hh : (getr st region).handle ≠ 0
    · constructor
      · simp [refresh_layout, if_pos hh, area_sum, out_area]
      · intro px py
        simp only [refresh_layout, if_pos hh]
        simp [count_containing, List.countP_cons, List.countP_nil, out_contains,
          Bool.and_eq_true, decide_eq_true_eq, and_assoc]
    · have hwf' := hwf
      simp only [wf_tree, Bool.and_eq_true, decide_eq_true_eq, if_neg hh] at hwf'
      obtain ⟨⟨⟨h0, h1⟩, hex⟩, ⟨⟨hf1, hf2⟩, hwfc0⟩, hwfc1⟩ := hwf'
      simp only [RESIZE_FACTOR] at hf1 hf2
      cases hs : (getr st region).split with
      | DIR_HORIZONTAL =>
        have hle : width * (getr st region).factor.toNat / 40 ≤ width := by
          have h40 : (getr st region).factor.toNat ≤ 40 := by omega
          calc width * (getr st region).factor.toNat / 40 ≤ width * 40 / 40 :=
            Nat.div_le_div_right (Nat.mul_le_mul_left width h40)
          _ = width := by omega
        have hA := ih (getr st region).child0 x y
          (width * (getr st region).factor.toNat / 40) height hwfc0
        have hB := ih (getr st region).child1
          (x + width * (getr st region).factor.toNat / 40) y
          (width - width * (getr st region).factor.toNat / 40) height hwfc1
        simp only [refresh_layout, if_neg hh, hsplit_w, vsplit_h, hs]
        simp only [reduceCtorEq, if_false, ite_false, if_true, ite_true, Nat.add_zero]
        constructor
        · rw [area_sum_append, hA.1, hB.1, ← Nat.add_mul, Nat.add_sub_cancel' hle]
        · intro px py
          rw [count_containing_append, hA.2 px py, hB.2 px py]
          split_ifs <;> omega
      | DIR_VERTICAL =>
        have hle : height * (getr st region).factor.toNat / 40 ≤ height := by
          have h40 : (getr st region).factor.toNat ≤ 40 := by omega
          calc height * (getr st region).factor.toNat / 40 ≤ height * 40 / 40 :=
            Nat.div_le_div_right (Nat.mul_le_mul_left height h40)
          _ = height := by omega
        have hA := ih (getr st region).child0 x y
          width (height * (getr st region).factor.toNat / 40) hwfc0
        have hB := ih (getr st region).child1
          x (y + height * (getr st region).factor.toNat / 40)
          width (height - height * (getr st region).factor.toNat / 40) hwfc1
        simp only [refresh_layout, if_neg hh, hsplit_w, vsplit_h, hs]
        simp only [reduceCtorEq, if_false, ite_false, if_true, ite_true, Nat.add_zero]
        constructor
        · rw [area_sum_append, hA.1, hB.1]
          have harea : width * (height * (getr st region).factor.toNat / 40) +
              width * (height - height * (getr st region).factor.toNat / 40) = width * height := by
            rw [← Nat.mul_add, Nat.add_sub_cancel' hle]
          exact harea
        · intro px py
          rw [count_containing_append, hA.2 px py, hB.2 px py]
          split_ifs <;> omega

/-- C4: over any well-formed region tree (live slots, valid indices,
every split factor within `[factor_min, 1 − factor_min]`), after
`refresh_layout` against the screen rectangle `(0, 0, W, H)` the
configured leaf rectangles partition the screen exactly: their areas sum
to `W·H` and every screen pixel lies in exactly one of them (pixels
outside the screen in none).  The first child's extent is
`floor(extent · factor)` and the second child receives the remainder by
construction of `refresh_layout` (`hsplit_w` / `vsplit_h`). -/
theorem c4_refresh_partitions (st : wm_state) (fuel : Nat) (region : Int) (W H : Nat)
    (hwf : wf_tree st fuel region = true) :
    area_sum (refresh_layout st fuel region 0 0 W H) = W * H ∧
    ∀ px py : Nat,
      count_containing (refresh_layout st fuel region 0 0 W H) px py =
        if px < W ∧ py < H then 1 else 0 := by
  obtain ⟨h1, h2⟩ := refresh_partition_aux st fuel region 0 0 W H hwf
  refine ⟨h1, fun px py => ?_⟩
  rw [h2 px py]
  split_ifs <;> omega

/-- C4, witness: the two-window tree of `c2_base` (root split at slot 1,
factor 20/40, leaves W2 and W1) is well-formed at fuel 3, and the theorem
applies to it against the 800×600 screen. -/
theorem c4_witness :
    wf_tree c2_base 3 1 = true ∧
    (area_sum (refresh_layout c2_base 3 1 0 0 800 600) = 800 * 600 ∧
     ∀ px py : Nat,
       count_containing (refresh_layout c2_base 3 1 0 0 800 600) px py =
         if px < 800 ∧ py < 600 then 1 else 0) :=
  ⟨by decide, c4_refresh_partitions c2_base 3 1 800 600 (by decide)⟩

end Wm
